import Mathlib

/-!
Verification of the Aadhaar Analytics Suite ingestion/analysis core.

Shallow embedding of `src/utils.py` and `src/app.py`.  Tables model pandas
DataFrames: a list of column names plus positional rows of cells.  Machine
floats are modelled by exact rationals; a z-score cell `Value.vz num varr`
stands for the real number `num / Real.sqrt varr` (the square root is kept
symbolic so that every definition stays computable; bridging theorems relate
the rational encodings to the intended real inequalities).
-/

namespace AadhaarSuite

/-- A cell value of a DataFrame: null (NaN/NaT), a number, a raw string, a
boolean, a calendar date, or a symbolic z-score `num / √varr`. -/
inductive Value where
  | vnull : Value
  | vnum (q : ℚ) : Value
  | vstr (s : String) : Value
  | vbool (b : Bool) : Value
  | vdate (d m y : ℕ) : Value
  | vz (num varr : ℚ) : Value
deriving DecidableEq

/-- A DataFrame: column names plus rows of cells, positionally aligned. -/
structure Table where
  cols : List String
  rows : List (List Value)
deriving DecidableEq

/-- Well-formedness: every row has exactly one cell per column. -/
def Table.wf (t : Table) : Prop := ∀ r ∈ t.rows, r.length = t.cols.length

instance (t : Table) : Decidable t.wf :=
  inferInstanceAs (Decidable (∀ r ∈ t.rows, r.length = t.cols.length))

/-- `df[c]`: the column named `c`, one cell per row (null when absent). -/
def Table.col (t : Table) (c : String) : List Value :=
  t.rows.map (fun r => r.getD (t.cols.indexOf c) Value.vnull)

/-- `df[c] = series`: overwrite column `c` if present, else append it. -/
def Table.setCol (t : Table) (c : String) (vs : List Value) : Table :=
  if c ∈ t.cols then
    { cols := t.cols, rows := (t.rows.zip vs).map (fun p => p.1.set (t.cols.indexOf c) p.2) }
  else
    { cols := t.cols ++ [c], rows := (t.rows.zip vs).map (fun p => p.1 ++ [p.2]) }

/-- `df[c] = df[c].map f`: transform the cells of an existing column. -/
def Table.mapCol (t : Table) (c : String) (f : Value → Value) : Table :=
  { cols := t.cols,
    rows := t.rows.map (fun r =>
      r.set (t.cols.indexOf c) (f (r.getD (t.cols.indexOf c) Value.vnull))) }

/-- Python `dict` assignment `m[k] = v`: replace the value of an existing key
in place, otherwise append the binding at the end. -/
def dictInsert (m : List (String × Table)) (k : String) (v : Table) : List (String × Table) :=
  if m.any (fun p => p.1 == k) then m.map (fun p => if p.1 = k then (k, v) else p)
  else m ++ [(k, v)]

/-- The value bound to `k` by the last entry of `es` whose key is `k`. -/
def lastMatch (k : String) : List (String × Table) → Option Table
  | [] => none
  | e :: t =>
    match lastMatch k t with
    | some v => some v
    | none => if e.1 = k then some e.2 else none

/-- Kinds of operator-visible diagnostics (`st.warning` / `st.error`). -/
inductive DiagKind where
  | emptyFile : DiagKind
  | skippedError : DiagKind
  | noUsableData : DiagKind
  | noValidData : DiagKind
  | processError : DiagKind
  | unknownSchema : DiagKind
deriving DecidableEq

/-- A diagnostic message naming the file it concerns. -/
structure Diag where
  file : String
  kind : DiagKind
deriving DecidableEq

deriving instance DecidableEq for Except

/-- An uploaded file: its name, its byte size, and the outcome of
`pd.read_csv` on its stream (a parse error message or the parsed table).
A zero-size stream always parses with an error. -/
structure UFile where
  name : String
  size : ℕ
  parsed : Except String Table
deriving DecidableEq

/-! ### String helpers (Python string methods on `List Char`) -/

/-- Python `str.strip()`: drop leading and trailing whitespace. -/
def pyStrip (s : List Char) : List Char :=
  ((s.dropWhile Char.isWhitespace).reverse.dropWhile Char.isWhitespace).reverse

/-- Python `str.lower()`. -/
def pyLowerChars (s : List Char) : List Char := s.map Char.toLower

/-- Python `str.capitalize()`: first character uppercased, rest lowercased. -/
def pyCapitalizeChars (s : List Char) : List Char :=
  match s with
  | [] => []
  | c :: cs => c.toUpper :: cs.map Char.toLower

/-- `needle` starts `hay` (character-wise). -/
def startsWithSeq : List Char → List Char → Bool
  | [], _ => true
  | _ :: _, [] => false
  | a :: as, b :: bs => a == b && startsWithSeq as bs

/-- Python `needle in hay` on strings: contiguous-subsequence test. -/
def containsSeq (needle : List Char) : List Char → Bool
  | [] => startsWithSeq needle []
  | c :: rest => startsWithSeq needle (c :: rest) || containsSeq needle rest

/-- Split a character list on a separator character. -/
def splitOnChar (sep : Char) : List Char → List (List Char)
  | [] => [[]]
  | a :: t =>
    match splitOnChar sep t with
    | [] => [[a]]
    | h :: r => if a = sep then [] :: h :: r else (a :: h) :: r

/-- Parse a nonempty all-digit character list as a natural number. -/
def digitsToNat (l : List Char) : Option ℕ :=
  if l ≠ [] ∧ l.all Char.isDigit then
    some (l.foldl (fun n c => 10 * n + (c.toNat - 48)) 0)
  else none

/-- `pd.to_numeric` on a string cell, restricted to (signed) integer
literals with surrounding whitespace; anything else fails. -/
def parseNumStr (l : List Char) : Option ℚ :=
  match pyStrip l with
  | '-' :: rest => (digitsToNat rest).map (fun n => -(n : ℚ))
  | other => (digitsToNat other).map (fun n => (n : ℚ))

/-- Day-first date parsing of `d-m-y` digit strings, as accepted by
`pd.to_datetime(..., dayfirst=True)` for inputs like `13-09-2025`;
other formats are modelled as unparseable (they would become `NaT`). -/
def parseDayFirst (l : List Char) : Option (ℕ × ℕ × ℕ) :=
  match splitOnChar '-' (pyStrip l) with
  | [a, b, c] =>
    match digitsToNat a, digitsToNat b, digitsToNat c with
    | some d, some m, some y =>
      if 1 ≤ d ∧ d ≤ 31 ∧ 1 ≤ m ∧ m ≤ 12 then some (d, m, y) else none
    | _, _, _ => none
  | _ => none

/-- English month names used by pandas `Series.dt.month_name()`. -/
def monthName (m : ℕ) : String :=
  (["January", "February", "March", "April", "May", "June", "July",
    "August", "September", "October", "November", "December"].getD (m - 1) "")

/-! ### `src/app.py` — column normalisation, classification, ingestion -/

/-- One header through
`col.strip().lower().replace(' ', '_').replace('-', '_')` (the per-column
effect of `normalize_columns`, app.py:138): strip, lowercase, then replace
every space character with `_`, then every hyphen with `_`.  Runs of
separators are NOT collapsed; each separator character becomes one
underscore. -/
def normKey (s : List Char) : List Char :=
  ((pyLowerChars (pyStrip s)).map (fun c => if c = ' ' then '_' else c)).map
    (fun c => if c = '-' then '_' else c)

/-- `normalize_columns` applied to a single raw header string. -/
def normalizeCol (s : String) : String := String.mk (normKey s.data)

/-- `normalize_columns` (app.py:131-139): rename every column. -/
def normalize_columns (t : Table) : Table :=
  { cols := t.cols.map normalizeCol, rows := t.rows }

/-- `identify_dataset` (app.py:141-156): priority-ordered keyword match on
the (normalized) column names. -/
def identify_dataset (cols : List String) : String :=
  if ["age_0_5", "age_0_to_5", "enrolment"].any (fun c => cols.contains c) then "enrolment"
  else if ["demo_age_5_17", "demographic", "demo_update"].any (fun c => cols.contains c) then "demographic"
  else if ["bio_age_5_17", "biometric", "bio_update"].any (fun c => cols.contains c) then "biometric"
  else "unknown"

/-- `pd.to_datetime(cell, dayfirst=True, errors='coerce')` on one cell:
a date stays a date, a parseable day-first string becomes a date, and
everything else becomes null (`NaT`) rather than raising. -/
def parseDateCell (v : Value) : Value :=
  match v with
  | .vdate d m y => .vdate d m y
  | .vstr s =>
    match parseDayFirst s.data with
    | some (d, m, y) => .vdate d m y
    | none => .vnull
  | _ => .vnull

/-- Steps 1-2 of the per-file body of `process_data` (app.py:164-173):
normalize the column names, then day-first-parse the `date` column when
present. -/
def prepTable (df : Table) : Table :=
  let d1 := normalize_columns df
  if d1.cols.contains "date" then d1.mapCol "date" parseDateCell else d1

/-- One iteration of the `process_data` loop (app.py:162-184), acting on
the accumulated `(data_map, diagnostics)` state.  A `pd.read_csv` failure
is caught and reported via `st.error`; an unrecognised schema is reported
via `st.warning`; otherwise `data_map[dtype] = df`. -/
def fileStep (acc : List (String × Table) × List Diag) (f : UFile) :
    List (String × Table) × List Diag :=
  match f.parsed with
  | .error _ => (acc.1, acc.2 ++ [⟨f.name, .processError⟩])
  | .ok df =>
    let t := prepTable df
    let dtype := identify_dataset t.cols
    if dtype = "unknown" then (acc.1, acc.2 ++ [⟨f.name, .unknownSchema⟩])
    else (dictInsert acc.1 dtype t, acc.2)

/-- `process_data` (app.py:158-186): fold the per-file step over the batch,
starting from an empty map and no diagnostics. -/
def process_data (fs : List UFile) : List (String × Table) × List Diag :=
  fs.foldl fileStep ([], [])

/-- The dataset-map contribution of a single file: `none` when the file
fails to parse or its schema is unknown, otherwise its category together
with its prepared table. -/
def fileOutcome (f : UFile) : Option (String × Table) :=
  match f.parsed with
  | .error _ => none
  | .ok df =>
    let t := prepTable df
    let d := identify_dataset t.cols
    if d = "unknown" then none else some (d, t)

/-- The diagnostic contribution of a single file in `process_data`. -/
def procDiag (f : UFile) : Option Diag :=
  match f.parsed with
  | .error _ => some ⟨f.name, .processError⟩
  | .ok df =>
    if identify_dataset (prepTable df).cols = "unknown" then some ⟨f.name, .unknownSchema⟩
    else none

/-! ### `src/utils.py` — `load_data` and `detect_anomalies` -/

/-- One iteration of the `load_data` file loop (utils.py:18-38): a
zero-size file is skipped with a warning; a `pd.read_csv` exception is
caught and skipped with a warning; a parsed frame with no rows or no
columns is skipped with a warning; otherwise the frame is appended. -/
def loadStep (acc : List Table × List Diag) (f : UFile) : List Table × List Diag :=
  if f.size = 0 then (acc.1, acc.2 ++ [⟨f.name, .emptyFile⟩])
  else
    match f.parsed with
    | .error _ => (acc.1, acc.2 ++ [⟨f.name, .skippedError⟩])
    | .ok df =>
      if df.rows.isEmpty || df.cols.isEmpty then (acc.1, acc.2 ++ [⟨f.name, .noUsableData⟩])
      else (acc.1 ++ [df], acc.2)

/-- The frame contributed by a single file in `load_data` (`none` when the
file is skipped). -/
def okFrame (f : UFile) : Option Table :=
  if f.size = 0 then none
  else
    match f.parsed with
    | .error _ => none
    | .ok df => if df.rows.isEmpty || df.cols.isEmpty then none else some df

/-- The diagnostic contributed by a single file in the `load_data` loop. -/
def loadDiag (f : UFile) : Option Diag :=
  if f.size = 0 then some ⟨f.name, .emptyFile⟩
  else
    match f.parsed with
    | .error _ => some ⟨f.name, .skippedError⟩
    | .ok df => if df.rows.isEmpty || df.cols.isEmpty then some ⟨f.name, .noUsableData⟩ else none

/-- Column order of `pd.concat`: the first frame's columns, then each later
frame's new columns in order of first appearance. -/
def unionCols (ts : List Table) : List String :=
  ts.foldl (fun acc t => acc ++ t.cols.filter (fun c => !(acc.contains c))) []

/-- Re-align one row of frame `t` to the concatenated column list, filling
columns absent from `t` with null (`NaN`). -/
def reindexRow (cols : List String) (t : Table) (r : List Value) : List Value :=
  cols.map (fun c => if t.cols.contains c then r.getD (t.cols.indexOf c) Value.vnull else Value.vnull)

/-- `pd.concat(data_frames, ignore_index=True)` (utils.py:45). -/
def concatTables (ts : List Table) : Table :=
  { cols := unionCols ts,
    rows := ts.flatMap (fun t => t.rows.map (reindexRow (unionCols ts) t)) }

/-- `df.columns = [col.strip().capitalize() for col in df.columns]`
(utils.py:50). -/
def capitalizeCols (t : Table) : Table :=
  { cols := t.cols.map (fun c => String.mk (pyCapitalizeChars (pyStrip c.data))), rows := t.rows }

/-- `Date` handling of `load_data` (utils.py:53-56): when a `Date` column
exists, coerce it to dates and derive `Year` and `Month_name` columns. -/
def dateHandling (t : Table) : Table :=
  if t.cols.contains "Date" then
    let d1 := t.mapCol "Date" parseDateCell
    let d2 := d1.setCol "Year" ((d1.col "Date").map (fun v =>
      match v with | .vdate _ _ y => .vnum (y : ℚ) | _ => .vnull))
    d2.setCol "Month_name" ((d1.col "Date").map (fun v =>
      match v with | .vdate _ m _ => .vstr (monthName m) | _ => .vnull))
  else t

/-- `any(x in col.lower() for x in ['age', 'count', 'total', 'enrolment',
'bio'])` (utils.py:60). -/
def metricLike (c : String) : Bool :=
  ["age", "count", "total", "enrolment", "bio"].any
    (fun k => containsSeq k.data (pyLowerChars c.data))

/-- `pd.to_numeric(cell, errors='coerce')`: numbers pass through, booleans
become 0/1, numeric strings parse, everything else becomes null. -/
def toNumericCell (v : Value) : Value :=
  match v with
  | .vnum q => .vnum q
  | .vbool b => .vnum (if b then 1 else 0)
  | .vstr s =>
    match parseNumStr s.data with
    | some q => .vnum q
    | none => .vnull
  | _ => .vnull

/-- `.fillna(0)` on a cell. -/
def fillZero (v : Value) : Value :=
  match v with
  | .vnull => .vnum 0
  | _ => v

/-- The numeric-conversion loop of `load_data` (utils.py:59-61): every
column whose lowercased name contains one of the metric keywords gets
`pd.to_numeric(..., errors='coerce').fillna(0)` applied cell-wise. -/
def numericCoerce (t : Table) : Table :=
  { cols := t.cols,
    rows := t.rows.map (fun r =>
      List.zipWith (fun c v => if metricLike c then fillZero (toNumericCell v) else v) t.cols r) }

/-- `load_data` (utils.py:5-67): run the per-file loop, return `None` with
an error diagnostic when no frame survived, otherwise concatenate, clean
and return the combined frame. -/
def load_data (fs : List UFile) : Option Table × List Diag :=
  if (fs.foldl loadStep ([], [])).1.isEmpty then
    (none, (fs.foldl loadStep ([], [])).2 ++ [⟨"", .noValidData⟩])
  else
    (some (numericCoerce (dateHandling (capitalizeCols
        (concatTables (fs.foldl loadStep ([], [])).1)))),
      (fs.foldl loadStep ([], [])).2)

/-- The numeric (non-null) values of a column, as pandas `mean`/`std`
see them with the default `skipna=True`. -/
def colNums (t : Table) (c : String) : List ℚ :=
  (t.col c).filterMap (fun v => match v with | .vnum q => some q | _ => none)

/-- `Series.mean()` over the non-null values (0 on an empty list; the code
only uses it when the guarded branches make this irrelevant). -/
def meanQ (xs : List ℚ) : ℚ := xs.sum / xs.length

/-- `Series.std()` squared: the sample variance with denominator `n - 1`
(pandas default `ddof=1`).  The standard deviation itself is `√sampleVar`,
kept symbolic; `Series.std()` is `NaN` exactly when fewer than two
non-null values exist. -/
def sampleVar (xs : List ℚ) : ℚ :=
  ((xs.map (fun x => (x - meanQ xs) ^ 2)).sum) / ((xs.length : ℚ) - 1)

/-- `np.abs(z) > threshold` for the z-score `num / √varr`, expressed in
exact rational arithmetic: for `varr > 0` this Boolean equals the real
inequality `|num| / √varr > t` (proved in `absZGtB_iff_real`). -/
def absZGtB (num varr t : ℚ) : Bool :=
  if t < 0 then true else decide (num ^ 2 > t ^ 2 * varr)

/-- `detect_anomalies` (utils.py:83-98).  `None`/empty input or a missing
metric column returns `None`; fewer than two non-null values (`std` is
`NaN`) or zero variance (`std == 0`) writes constant `Z_Score = 0`,
`Is_Anomaly = False`; otherwise each numeric cell `x` gets the z-score
`(x - mean) / std` (stored symbolically as `Value.vz (x - mean) var`) and
the flag `np.abs(z) > threshold`; null cells get null z-scores and are
never flagged (`NaN` comparisons are false). -/
def detect_anomalies (df? : Option Table) (metric : String) (threshold : ℚ) : Option Table :=
  match df? with
  | none => none
  | some df =>
    if df.rows.isEmpty || !(df.cols.contains metric) then none
    else
      let xs := colNums df metric
      if xs.length < 2 ∨ sampleVar xs = 0 then
        some ((df.setCol "Z_Score" (List.replicate df.rows.length (Value.vnum 0))).setCol
          "Is_Anomaly" (List.replicate df.rows.length (Value.vbool false)))
      else
        let μ := meanQ xs
        let varr := sampleVar xs
        some ((df.setCol "Z_Score" ((df.col metric).map (fun v =>
            match v with | .vnum x => Value.vz (x - μ) varr | _ => Value.vnull))).setCol
          "Is_Anomaly" ((df.col metric).map (fun v =>
            match v with | .vnum x => Value.vbool (absZGtB (x - μ) varr threshold)
                         | _ => Value.vbool false)))

/-- The caller's view of its argument after `detect_anomalies` returns: the
source assigns the `Z_Score` / `Is_Anomaly` columns onto the argument
DataFrame itself and returns that same object, so after any call that did
not take an early `None` return the caller's binding holds the returned
table; on the early returns no assignment has happened yet and the
argument is untouched. -/
def detect_anomalies_argAfter (df? : Option Table) (metric : String) (threshold : ℚ) :
    Option Table :=
  match detect_anomalies df? metric threshold with
  | some r => some r
  | none => df?

/-! ### Lemmas: dictionary and ingestion-loop characterisations -/

theorem lookup_map_replace (k : String) (v : Table) :
    ∀ m : List (String × Table),
      List.lookup k (m.map (fun p => if p.1 = k then (k, v) else p)) =
        if m.any (fun p => p.1 == k) then some v else none := by
  intro m
  induction m with
  | nil => simp
  | cons e t ih =>
    obtain ⟨a, b⟩ := e
    by_cases h : a = k
    · subst h
      rw [List.map_cons, if_pos (show (a, b).1 = a from rfl), List.lookup_cons]
      simp [ih]
    · have hka : (k == a) = false := beq_eq_false_iff_ne.mpr (fun hk => h hk.symm)
      have hak : (a == k) = false := beq_eq_false_iff_ne.mpr h
      rw [List.map_cons, if_neg (show ¬((a, b).1 = k) from h), List.lookup_cons]
      simp only [hka, ih, List.any_cons]
      simp only [show ((a, b).1 == k) = false from hak, Bool.false_or]

theorem lookup_append_single (k : String) (v : Table) :
    ∀ m : List (String × Table), m.any (fun p => p.1 == k) = false →
      List.lookup k (m ++ [(k, v)]) = some v := by
  intro m
  induction m with
  | nil =>
    intro _
    simp [List.lookup]
  | cons e t ih =>
    intro h
    obtain ⟨a, b⟩ := e
    simp only [List.any_cons, Bool.or_eq_false_iff] at h
    have hka : (k == a) = false := by
      refine beq_eq_false_iff_ne.mpr (fun hk => ?_)
      subst hk
      simpa using h.1
    simp [List.lookup, hka, ih h.2]

theorem lookup_append_ne (k k' : String) (v : Table) (h : k' ≠ k) :
    ∀ m : List (String × Table),
      List.lookup k' (m ++ [(k, v)]) = List.lookup k' m := by
  intro m
  induction m with
  | nil => simp [List.lookup, beq_eq_false_iff_ne.mpr h]
  | cons e t ih =>
    obtain ⟨a, b⟩ := e
    by_cases he : k' = a
    · subst he
      simp [List.lookup, ih]
    · simp [List.lookup, beq_eq_false_iff_ne.mpr he, ih]

theorem lookup_map_replace_ne (k k' : String) (v : Table) (h : k' ≠ k) :
    ∀ m : List (String × Table),
      List.lookup k' (m.map (fun p => if p.1 = k then (k, v) else p)) =
        List.lookup k' m := by
  intro m
  induction m with
  | nil => simp
  | cons e t ih =>
    obtain ⟨a, b⟩ := e
    by_cases he : a = k
    · subst he
      rw [List.map_cons, if_pos (show (a, b).1 = a from rfl), List.lookup_cons,
        List.lookup_cons]
      simp [beq_eq_false_iff_ne.mpr h, ih]
    · rw [List.map_cons, if_neg (show ¬((a, b).1 = k) from he), List.lookup_cons,
        List.lookup_cons]
      by_cases hke : k' = a
      · subst hke
        simp
      · simp [beq_eq_false_iff_ne.mpr hke, ih]

theorem lookup_dictInsert_self (m : List (String × Table)) (k : String) (v : Table) :
    List.lookup k (dictInsert m k v) = some v := by
  unfold dictInsert
  by_cases h : m.any (fun p => p.1 == k)
  · simp [h, lookup_map_replace]
  · simp only [Bool.not_eq_true] at h
    simp [h, lookup_append_single k v m h]

theorem lookup_dictInsert_ne (m : List (String × Table)) (k k' : String) (v : Table)
    (h : k' ≠ k) : List.lookup k' (dictInsert m k v) = List.lookup k' m := by
  unfold dictInsert
  by_cases hm : m.any (fun p => p.1 == k)
  · simp [hm, lookup_map_replace_ne k k' v h]
  · simp only [Bool.not_eq_true] at hm
    simp [hm, lookup_append_ne k k' v h]

theorem lookup_foldl_upsert (k : String) :
    ∀ (es : List (String × Table)) (m : List (String × Table)),
      List.lookup k (es.foldl (fun acc p => dictInsert acc p.1 p.2) m) =
        match lastMatch k es with
        | some v => some v
        | none => List.lookup k m := by
  intro es
  induction es with
  | nil => intro m; simp [lastMatch]
  | cons e t ih =>
    intro m
    simp only [List.foldl_cons, ih, lastMatch]
    cases hlm : lastMatch k t with
    | some v => simp
    | none =>
      by_cases he : e.1 = k
      · subst he
        simp [lookup_dictInsert_self]
      · have : k ≠ e.1 := fun hk => he hk.symm
        simp [he, lookup_dictInsert_ne m e.1 k e.2 this]

theorem processLoop_spec :
    ∀ (fs : List UFile) (acc : List (String × Table) × List Diag),
      fs.foldl fileStep acc =
        ((fs.filterMap fileOutcome).foldl (fun m p => dictInsert m p.1 p.2) acc.1,
          acc.2 ++ fs.filterMap procDiag) := by
  intro fs
  induction fs with
  | nil => intro acc; simp
  | cons f t ih =>
    intro acc
    rcases hp : f.parsed with e | df
    · simp [List.foldl_cons, ih, fileStep, fileOutcome, procDiag, hp]
    · by_cases hd : identify_dataset (prepTable df).cols = "unknown"
      · simp [List.foldl_cons, ih, fileStep, fileOutcome, procDiag, hp, hd]
      · simp [List.foldl_cons, ih, fileStep, fileOutcome, procDiag, hp, hd]

theorem process_data_spec (fs : List UFile) :
    process_data fs =
      ((fs.filterMap fileOutcome).foldl (fun m p => dictInsert m p.1 p.2) [],
        fs.filterMap procDiag) := by
  unfold process_data
  rw [processLoop_spec fs ([], [])]
  simp

theorem fileOutcome_fst_ne_unknown (f : UFile) (p : String × Table)
    (h : fileOutcome f = some p) : p.1 ≠ "unknown" := by
  unfold fileOutcome at h
  rcases hp : f.parsed with e | df <;> rw [hp] at h
  · simp at h
  · by_cases hd : identify_dataset (prepTable df).cols = "unknown"
    · simp [hd] at h
    · simp only [if_neg hd] at h
      obtain rfl := Option.some.inj h
      exact hd

theorem lastMatch_unknown (fs : List UFile) :
    lastMatch "unknown" (fs.filterMap fileOutcome) = none := by
  induction fs with
  | nil => simp [lastMatch]
  | cons f t ih =>
    cases ho : fileOutcome f with
    | none => simp [List.filterMap_cons, ho, ih]
    | some p =>
      have hne := fileOutcome_fst_ne_unknown f p ho
      simp [List.filterMap_cons, ho, lastMatch, ih, fun h => hne h]

/-- `True` exactly when `pd.read_csv` succeeded on the file. -/
def parseOkB (f : UFile) : Bool :=
  match f.parsed with
  | .ok _ => true
  | .error _ => false

theorem filterMap_fileOutcome_filter (fs : List UFile) :
    (fs.filter parseOkB).filterMap fileOutcome = fs.filterMap fileOutcome := by
  induction fs with
  | nil => simp
  | cons f t ih =>
    rcases hp : f.parsed with e | df
    · simp [List.filter_cons, parseOkB, hp, List.filterMap_cons, fileOutcome, ih]
    · simp [List.filter_cons, parseOkB, hp, List.filterMap_cons, ih]

theorem loadLoop_spec :
    ∀ (fs : List UFile) (acc : List Table × List Diag),
      fs.foldl loadStep acc =
        (acc.1 ++ fs.filterMap okFrame, acc.2 ++ fs.filterMap loadDiag) := by
  intro fs
  induction fs with
  | nil => intro acc; simp
  | cons f t ih =>
    intro acc
    by_cases hs : f.size = 0
    · simp [List.foldl_cons, ih, loadStep, okFrame, loadDiag, hs]
    · rcases hp : f.parsed with e | df
      · simp [List.foldl_cons, ih, loadStep, okFrame, loadDiag, hs, hp]
      · by_cases he : df.rows.isEmpty || df.cols.isEmpty
        · simp [List.foldl_cons, ih, loadStep, okFrame, loadDiag, hs, hp, he]
        · simp [List.foldl_cons, ih, loadStep, okFrame, loadDiag, hs, hp, he]

/-! ### Lemmas: table columns under `setCol` and friends -/

theorem getD_set_self_lt {r : List Value} {i : ℕ} (h : i < r.length) (v d : Value) :
    (r.set i v).getD i d = v := by
  rw [List.getD_eq_getElem?_getD, List.getElem?_set_self h]
  rfl

theorem getD_set_ne {r : List Value} {i j : ℕ} (h : i ≠ j) (v d : Value) :
    (r.set i v).getD j d = r.getD j d := by
  rw [List.getD_eq_getElem?_getD, List.getElem?_set_ne h, ← List.getD_eq_getElem?_getD]

theorem getD_append_len {r : List Value} (v d : Value) :
    (r ++ [v]).getD r.length d = v := by
  rw [List.getD_eq_getElem?_getD, List.getElem?_concat_length]
  rfl

theorem getD_append_lt {r : List Value} {i : ℕ} (h : i < r.length) (v d : Value) :
    (r ++ [v]).getD i d = r.getD i d := by
  rw [List.getD_eq_getElem?_getD, List.getElem?_append_left h, ← List.getD_eq_getElem?_getD]

theorem zipset_col_self :
    ∀ (rows : List (List Value)) (vs : List Value) (i : ℕ),
      rows.length = vs.length → (∀ r ∈ rows, i < r.length) →
      ((rows.zip vs).map (fun p => p.1.set i p.2)).map (fun r => r.getD i Value.vnull) = vs := by
  intro rows
  induction rows with
  | nil =>
    intro vs i hlen _
    cases vs with
    | nil => rfl
    | cons v ws => simp at hlen
  | cons r rs ih =>
    intro vs i hlen hall
    cases vs with
    | nil => simp at hlen
    | cons v ws =>
      simp only [List.zip_cons_cons, List.map_cons]
      rw [getD_set_self_lt (hall r (by simp)) v Value.vnull]
      rw [ih ws i (by simpa using hlen) (fun r hr => hall r (by simp [hr]))]

theorem zipset_col_ne :
    ∀ (rows : List (List Value)) (vs : List Value) (i j : ℕ),
      rows.length = vs.length → i ≠ j →
      ((rows.zip vs).map (fun p => p.1.set i p.2)).map (fun r => r.getD j Value.vnull) =
        rows.map (fun r => r.getD j Value.vnull) := by
  intro rows
  induction rows with
  | nil =>
    intro vs i j hlen _
    cases vs with
    | nil => rfl
    | cons v ws => simp at hlen
  | cons r rs ih =>
    intro vs i j hlen hne
    cases vs with
    | nil => simp at hlen
    | cons v ws =>
      simp only [List.zip_cons_cons, List.map_cons]
      rw [getD_set_ne hne v Value.vnull, ih ws i j (by simpa using hlen) hne]

theorem zipapp_col_len :
    ∀ (rows : List (List Value)) (vs : List Value) (j : ℕ),
      rows.length = vs.length → (∀ r ∈ rows, r.length = j) →
      ((rows.zip vs).map (fun p => p.1 ++ [p.2])).map (fun r => r.getD j Value.vnull) = vs := by
  intro rows
  induction rows with
  | nil =>
    intro vs j hlen _
    cases vs with
    | nil => rfl
    | cons v ws => simp at hlen
  | cons r rs ih =>
    intro vs j hlen hall
    cases vs with
    | nil => simp at hlen
    | cons v ws =>
      simp only [List.zip_cons_cons, List.map_cons]
      have hhead : (r ++ [v]).getD j Value.vnull = v := by
        rw [← hall r (by simp)]
        exact getD_append_len v Value.vnull
      rw [hhead, ih ws j (by simpa using hlen) (fun r hr => hall r (by simp [hr]))]

theorem zipapp_col_lt :
    ∀ (rows : List (List Value)) (vs : List Value) (j : ℕ),
      rows.length = vs.length → (∀ r ∈ rows, j < r.length) →
      ((rows.zip vs).map (fun p => p.1 ++ [p.2])).map (fun r => r.getD j Value.vnull) =
        rows.map (fun r => r.getD j Value.vnull) := by
  intro rows
  induction rows with
  | nil =>
    intro vs j hlen _
    cases vs with
    | nil => rfl
    | cons v ws => simp at hlen
  | cons r rs ih =>
    intro vs j hlen hall
    cases vs with
    | nil => simp at hlen
    | cons v ws =>
      simp only [List.zip_cons_cons, List.map_cons]
      rw [getD_append_lt (hall r (by simp)) v Value.vnull]
      rw [ih ws j (by simpa using hlen) (fun r hr => hall r (by simp [hr]))]

theorem Table.cols_setCol (t : Table) (c : String) (vs : List Value) :
    (t.setCol c vs).cols = if c ∈ t.cols then t.cols else t.cols ++ [c] := by
  unfold Table.setCol
  split <;> rfl

theorem Table.mem_cols_setCol (t : Table) (c : String) (vs : List Value) :
    c ∈ (t.setCol c vs).cols := by
  rw [Table.cols_setCol]
  split
  · assumption
  · simp

theorem Table.rows_setCol_length (t : Table) (c : String) (vs : List Value)
    (h : vs.length = t.rows.length) : (t.setCol c vs).rows.length = t.rows.length := by
  unfold Table.setCol
  split <;> simp [List.length_zip, h]

theorem Table.wf_setCol (t : Table) (c : String) (vs : List Value) (hwf : t.wf)
    (h : vs.length = t.rows.length) : (t.setCol c vs).wf := by
  unfold Table.setCol
  split
  · intro r hr
    simp only [List.mem_map] at hr
    obtain ⟨p, hp, rfl⟩ := hr
    have := (List.of_mem_zip hp).1
    simp [hwf _ this]
  · intro r hr
    simp only [List.mem_map] at hr
    obtain ⟨p, hp, rfl⟩ := hr
    have := (List.of_mem_zip hp).1
    simp [hwf _ this]

theorem Table.col_length (t : Table) (c : String) : (t.col c).length = t.rows.length := by
  simp [Table.col]

theorem Table.col_setCol_self (t : Table) (c : String) (vs : List Value) (hwf : t.wf)
    (h : vs.length = t.rows.length) : (t.setCol c vs).col c = vs := by
  unfold Table.setCol Table.col
  by_cases hmem : c ∈ t.cols
  · simp only [if_pos hmem]
    have hi : t.cols.indexOf c < t.cols.length := List.indexOf_lt_length.mpr hmem
    exact zipset_col_self t.rows vs (t.cols.indexOf c) h.symm
      (fun r hr => by rw [hwf r hr]; exact hi)
  · simp only [if_neg hmem]
    have hidx : (t.cols ++ [c]).indexOf c = t.cols.length := by
      rw [List.indexOf_append_of_not_mem hmem, List.indexOf_cons_self]
      omega
    rw [hidx]
    exact zipapp_col_len t.rows vs t.cols.length h.symm (fun r hr => hwf r hr)

theorem indexOf_ne_of_mem_ne {l : List String} {a b : String} (ha : a ∈ l) (hb : b ∈ l)
    (hne : a ≠ b) : l.indexOf a ≠ l.indexOf b := by
  intro hcontra
  have h1 : l.get ⟨l.indexOf a, List.indexOf_lt_length.mpr ha⟩ = a := List.indexOf_get _
  have h2 : l.get ⟨l.indexOf b, List.indexOf_lt_length.mpr hb⟩ = b := List.indexOf_get _
  apply hne
  rw [← h1, ← h2]
  congr 1
  exact Fin.ext hcontra

theorem Table.col_setCol_ne (t : Table) (c c' : String) (vs : List Value) (hwf : t.wf)
    (h : vs.length = t.rows.length) (hc' : c' ∈ t.cols) (hne : c' ≠ c) :
    (t.setCol c vs).col c' = t.col c' := by
  unfold Table.setCol Table.col
  by_cases hmem : c ∈ t.cols
  · simp only [if_pos hmem]
    exact zipset_col_ne t.rows vs (t.cols.indexOf c) (t.cols.indexOf c') h.symm
      (indexOf_ne_of_mem_ne hmem hc' (fun hx => hne hx.symm))
  · simp only [if_neg hmem]
    have hidx : (t.cols ++ [c]).indexOf c' = t.cols.indexOf c' :=
      List.indexOf_append_of_mem hc'
    rw [hidx]
    exact zipapp_col_lt t.rows vs (t.cols.indexOf c') h.symm
      (fun r hr => by rw [hwf r hr]; exact List.indexOf_lt_length.mpr hc')

theorem Table.wf_mapCol (t : Table) (c : String) (f : Value → Value) (hwf : t.wf) :
    (t.mapCol c f).wf := by
  intro r hr
  simp only [Table.mapCol, List.mem_map] at hr
  obtain ⟨r0, hr0, rfl⟩ := hr
  simp [Table.mapCol, hwf r0 hr0]

theorem Table.rows_mapCol_length (t : Table) (c : String) (f : Value → Value) :
    (t.mapCol c f).rows.length = t.rows.length := by
  simp [Table.mapCol]

theorem wf_concatTables (ts : List Table) : (concatTables ts).wf := by
  intro r hr
  simp only [concatTables, List.mem_flatMap, List.mem_map] at hr
  obtain ⟨t, _, r0, _, rfl⟩ := hr
  simp [reindexRow, concatTables]

theorem wf_capitalizeCols (t : Table) (hwf : t.wf) : (capitalizeCols t).wf := by
  intro r hr
  simp only [capitalizeCols] at hr ⊢
  simp [hwf r hr]

theorem wf_dateHandling (t : Table) (hwf : t.wf) : (dateHandling t).wf := by
  unfold dateHandling
  split
  · apply Table.wf_setCol
    · apply Table.wf_setCol
      · exact Table.wf_mapCol _ _ _ hwf
      · rw [List.length_map, Table.col_length]
    · rw [List.length_map, Table.col_length, Table.rows_setCol_length]
      rw [List.length_map, Table.col_length]
  · exact hwf

/-! ### Lemmas: numeric coercion, sample variance, and the z-score encoding -/

theorem fillZero_toNumericCell (v : Value) : ∃ q, fillZero (toNumericCell v) = Value.vnum q := by
  cases v with
  | vnull => exact ⟨0, rfl⟩
  | vnum q => exact ⟨q, rfl⟩
  | vbool b => exact ⟨if b then 1 else 0, rfl⟩
  | vstr s =>
    cases hp : parseNumStr s.data with
    | some q => exact ⟨q, by simp [toNumericCell, hp, fillZero]⟩
    | none => exact ⟨0, by simp [toNumericCell, hp, fillZero]⟩
  | vdate d m y => exact ⟨0, rfl⟩
  | vz a b => exact ⟨0, rfl⟩

theorem numericCoerce_col_num (t : Table) (hwf : t.wf) (c : String) (hc : c ∈ t.cols)
    (hm : metricLike c = true) :
    ∀ v ∈ (numericCoerce t).col c, ∃ q, v = Value.vnum q := by
  intro v hv
  simp only [numericCoerce, Table.col, List.map_map, List.mem_map, Function.comp] at hv
  obtain ⟨r, hr, hval⟩ := hv
  have hi : t.cols.indexOf c < t.cols.length := List.indexOf_lt_length.mpr hc
  have hrl : r.length = t.cols.length := hwf r hr
  have hlt : t.cols.indexOf c <
      (List.zipWith (fun c v => if metricLike c then fillZero (toNumericCell v) else v)
        t.cols r).length := by
    rw [List.length_zipWith, hrl, min_self]
    exact hi
  rw [List.getD_eq_getElem?_getD, List.getElem?_eq_getElem hlt] at hval
  simp only [Option.getD_some] at hval
  rw [List.getElem_zipWith] at hval
  have hci : t.cols[t.cols.indexOf c] = c := by
    have hg := List.indexOf_get (a := c) (l := t.cols) hi
    rwa [List.get_eq_getElem] at hg
  rw [hci, if_pos hm] at hval
  obtain ⟨q, hq⟩ := fillZero_toNumericCell (r.get ⟨t.cols.indexOf c, by rw [hrl]; exact hi⟩)
  rw [List.get_eq_getElem] at hq
  exact ⟨q, by rw [← hval, hq]⟩

theorem sampleVar_nonneg (xs : List ℚ) : 0 ≤ sampleVar xs := by
  rcases xs with _ | ⟨a, t⟩
  · simp [sampleVar, meanQ]
  · rcases t with _ | ⟨b, t2⟩
    · simp [sampleVar, meanQ]
    · unfold sampleVar
      apply div_nonneg
      · apply List.sum_nonneg
        intro x hx
        simp only [List.mem_map] at hx
        obtain ⟨y, _, rfl⟩ := hx
        exact sq_nonneg _
      · have h2 : (2 : ℚ) ≤ ((a :: b :: t2).length : ℚ) := by
          simp only [List.length_cons]
          push_cast
          linarith [Nat.cast_nonneg (α := ℚ) t2.length]
        linarith

theorem sampleVar_const (xs : List ℚ) (c : ℚ) (h : ∀ x ∈ xs, x = c) : sampleVar xs = 0 := by
  rcases xs with _ | ⟨a, t⟩
  · simp [sampleVar, meanQ]
  · have hlen : (((a :: t).length : ℚ)) ≠ 0 := by
      simp only [List.length_cons]
      push_cast
      positivity
    have hmean : meanQ (a :: t) = c := by
      unfold meanQ
      rw [List.sum_eq_card_nsmul (a :: t) c h, nsmul_eq_mul, mul_comm, mul_div_assoc,
        div_self hlen, mul_one]
    unfold sampleVar
    rw [hmean]
    have hz : ((a :: t).map (fun x => (x - c) ^ 2)).sum = 0 := by
      rw [List.sum_eq_card_nsmul _ (0 : ℚ)]
      · simp
      · intro x hx
        simp only [List.mem_map] at hx
        obtain ⟨y, hy, rfl⟩ := hx
        rw [h y hy]
        ring
    rw [hz, zero_div]

theorem absZGtB_iff_real (num varr t : ℚ) (hv : 0 < varr) :
    absZGtB num varr t = true ↔ (t : ℝ) < |(num : ℝ)| / Real.sqrt (varr : ℝ) := by
  have hv' : (0 : ℝ) < (varr : ℝ) := by exact_mod_cast hv
  have hs : 0 < Real.sqrt (varr : ℝ) := Real.sqrt_pos.mpr hv'
  unfold absZGtB
  by_cases ht : t < 0
  · simp only [if_pos ht, true_iff]
    have htR : (t : ℝ) < 0 := by exact_mod_cast ht
    exact lt_of_lt_of_le htR (div_nonneg (abs_nonneg _) (Real.sqrt_nonneg _))
  · simp only [if_neg ht, decide_eq_true_eq]
    have htR : (0 : ℝ) ≤ (t : ℝ) := by exact_mod_cast not_lt.mp ht
    rw [lt_div_iff₀ hs]
    have hsq : ((t : ℝ) * Real.sqrt (varr : ℝ)) ^ 2 = (t : ℝ) ^ 2 * (varr : ℝ) := by
      rw [mul_pow, Real.sq_sqrt hv'.le]
    constructor
    · intro hgt
      have hgtR : (t : ℝ) ^ 2 * (varr : ℝ) < (num : ℝ) ^ 2 := by exact_mod_cast hgt
      have habs : ((t : ℝ) * Real.sqrt (varr : ℝ)) ^ 2 < |(num : ℝ)| ^ 2 := by
        rw [hsq, sq_abs]
        exact hgtR
      exact (pow_lt_pow_iff_left₀ (mul_nonneg htR (Real.sqrt_nonneg _)) (abs_nonneg _)
        (two_ne_zero)).mp habs
    · intro hlt
      have habs : ((t : ℝ) * Real.sqrt (varr : ℝ)) ^ 2 < |(num : ℝ)| ^ 2 :=
        (pow_lt_pow_iff_left₀ (mul_nonneg htR (Real.sqrt_nonneg _)) (abs_nonneg _)
          (two_ne_zero)).mpr hlt
      rw [hsq, sq_abs] at habs
      exact_mod_cast habs

/-! ### The two assignment branches of `detect_anomalies` -/

/-- The table produced by the degenerate branch (utils.py:90-93): constant
zero `Z_Score`, constant false `Is_Anomaly`. -/
def degenerateAugment (df : Table) : Table :=
  (df.setCol "Z_Score" (List.replicate df.rows.length (Value.vnum 0))).setCol "Is_Anomaly"
    (List.replicate df.rows.length (Value.vbool false))

/-- The `Z_Score` column written by the main branch of `detect_anomalies`:
each numeric cell `x` gets the cell `vz (x - mean) var`, i.e. the z-score
`(x - mean) / √var`; null/non-numeric cells get `NaN`. -/
def zScoreCells (df : Table) (m : String) : List Value :=
  (df.col m).map (fun v =>
    match v with
    | .vnum x => Value.vz (x - meanQ (colNums df m)) (sampleVar (colNums df m))
    | _ => Value.vnull)

/-- The `Is_Anomaly` column written by the main branch of
`detect_anomalies`: each numeric cell `x` is flagged by
`np.abs((x - mean) / std) > threshold`, encoded rationally by `absZGtB`;
non-numeric cells are never flagged (`NaN` comparisons are false). -/
def anomalyFlags (df : Table) (m : String) (t : ℚ) : List Value :=
  (df.col m).map (fun v =>
    match v with
    | .vnum x => Value.vbool (absZGtB (x - meanQ (colNums df m)) (sampleVar (colNums df m)) t)
    | _ => Value.vbool false)

/-- The table produced by the main branch (utils.py:95-96): per-row
z-scores `(x - mean) / std` and the two-sided flag `np.abs(z) > threshold`. -/
def augmented (df : Table) (m : String) (t : ℚ) : Table :=
  (df.setCol "Z_Score" (zScoreCells df m)).setCol "Is_Anomaly" (anomalyFlags df m t)

theorem detect_anomalies_degenerate_eq (df : Table) (m : String) (t : ℚ)
    (hm : m ∈ df.cols) (hne : df.rows.isEmpty = false)
    (hdeg : (colNums df m).length < 2 ∨ sampleVar (colNums df m) = 0) :
    detect_anomalies (some df) m t = some (degenerateAugment df) := by
  unfold detect_anomalies degenerateAugment
  simp [hne, hm, hdeg]

theorem detect_anomalies_main_eq (df : Table) (m : String) (t : ℚ)
    (hm : m ∈ df.cols) (hne : df.rows.isEmpty = false)
    (hdeg : ¬((colNums df m).length < 2 ∨ sampleVar (colNums df m) = 0)) :
    detect_anomalies (some df) m t = some (augmented df m t) := by
  unfold detect_anomalies augmented zScoreCells anomalyFlags
  simp [hne, hm, hdeg]

theorem zScoreCells_length (df : Table) (m : String) :
    (zScoreCells df m).length = df.rows.length := by
  unfold zScoreCells
  rw [List.length_map, Table.col_length]

theorem anomalyFlags_length (df : Table) (m : String) (t : ℚ) :
    (anomalyFlags df m t).length = df.rows.length := by
  unfold anomalyFlags
  rw [List.length_map, Table.col_length]

theorem augmented_col_flags (df : Table) (m : String) (t : ℚ) (hwf : df.wf) :
    (augmented df m t).col "Is_Anomaly" = anomalyFlags df m t := by
  unfold augmented
  apply Table.col_setCol_self
  · exact Table.wf_setCol _ _ _ hwf (zScoreCells_length df m)
  · rw [anomalyFlags_length, Table.rows_setCol_length _ _ _ (zScoreCells_length df m)]

theorem augmented_col_z (df : Table) (m : String) (t : ℚ) (hwf : df.wf) :
    (augmented df m t).col "Z_Score" = zScoreCells df m := by
  unfold augmented
  rw [Table.col_setCol_ne _ "Is_Anomaly" "Z_Score" _
    (Table.wf_setCol _ _ _ hwf (zScoreCells_length df m))
    (by rw [anomalyFlags_length, Table.rows_setCol_length _ _ _ (zScoreCells_length df m)])
    (Table.mem_cols_setCol _ _ _) (by decide)]
  exact Table.col_setCol_self _ _ _ hwf (zScoreCells_length df m)

/-! ### Concrete tables and files used in the claim instances -/

/-- A one-row enrolment CSV. -/
def tEnrolA : Table := ⟨["age_0_5"], [[Value.vnum 1]]⟩

/-- A second one-row enrolment CSV with a different row. -/
def tEnrolB : Table := ⟨["age_0_5"], [[Value.vnum 2]]⟩

def fEnrolA : UFile := ⟨"enrol_a.csv", 23, Except.ok tEnrolA⟩

def fEnrolB : UFile := ⟨"enrol_b.csv", 24, Except.ok tEnrolB⟩

/-- A zero-byte upload; `pd.read_csv` raises `EmptyDataError` on it. -/
def fEmptyStream : UFile := ⟨"empty.csv", 0, Except.error "No columns to parse from file"⟩

def fBio3 : UFile := ⟨"bio3.csv", 8, Except.ok ⟨["bio_age_5_17"], [[Value.vnum 7]]⟩⟩

/-- A biometric CSV whose metric cell is a raw non-numeric string. -/
def rawBioFile : UFile := ⟨"bio_updates.csv", 9, Except.ok ⟨["bio_age_5_17"], [[Value.vstr "oops"]]⟩⟩

/-- An enrolment CSV with one non-numeric metric cell, for `load_data`. -/
def strFile : UFile := ⟨"ages.csv", 5, Except.ok ⟨["age_0_5"], [[Value.vstr "x"], [Value.vnum 3]]⟩⟩

/-- The spec's concrete anomaly scenario: district metric values 100, 110, 500. -/
def punTable : Table :=
  ⟨["district", "bio_age_17_"],
    [[Value.vstr "Pune", Value.vnum 100], [Value.vstr "Mumbai", Value.vnum 110],
      [Value.vstr "Nagpur", Value.vnum 500]]⟩

/-- A grouped table with one low outlier: values 0, 100, 100, 100, 100
(mean 80, sample variance 2000, z-score of the first row `-80 / √2000 ≈
-1.79`). -/
def lowOutlierTable : Table :=
  ⟨["m"], [[Value.vnum 0], [Value.vnum 100], [Value.vnum 100], [Value.vnum 100], [Value.vnum 100]]⟩

/-- A two-row table used to exhibit argument mutation. -/
def mutTable : Table := ⟨["m"], [[Value.vnum 1], [Value.vnum 2]]⟩

/-! ### Claims -/

/-- **C1, counterexample.**  The claim says that two uploaded files of the
same detected category are concatenated row-wise into one merged table
with no earlier file's rows dropped.  In the code, `data_map[dtype] = df`
(app.py:179) overwrites: ingesting two enrolment files binds `enrolment`
to the second file's table alone, and the first file's row `[1]` is gone. -/
theorem claim1_counterexample :
    (process_data [fEnrolA, fEnrolB]).1 = [("enrolment", tEnrolB)] ∧
    List.lookup "enrolment" (process_data [fEnrolA, fEnrolB]).1 ≠
      some ⟨["age_0_5"], [[Value.vnum 1], [Value.vnum 2]]⟩ ∧
    tEnrolB.rows = [[Value.vnum 2]] := by
  refine ⟨by decide, by decide, rfl⟩

/-- **C1, amended.**  After ingestion, each category key in the dataset map
is bound to the prepared table of the **last** file of that category
(parse failures and unknown-schema files contribute nothing): the map
lookup equals `lastMatch` over the per-file outcomes, so earlier
same-category files are overwritten, not concatenated. -/
theorem claim1_overwrite (fs : List UFile) (k : String) :
    List.lookup k (process_data fs).1 = lastMatch k (fs.filterMap fileOutcome) := by
  rw [process_data_spec]
  simp only []
  rw [lookup_foldl_upsert]
  cases lastMatch k (fs.filterMap fileOutcome) <;> simp

/-- **C3, counterexample.**  The claim says headers differing only in the
run-length of hyphens normalise identically.  `normalize_columns` replaces
each separator character by one underscore without collapsing runs, so
`age-0-5` and `age--0--5` — the same logical name with different hyphen
run lengths — produce the distinct keys `age_0_5` and `age__0__5`. -/
theorem claim3_counterexample :
    normalizeCol "age-0-5" = "age_0_5" ∧ normalizeCol "age--0--5" = "age__0__5" ∧
    normalizeCol "age-0-5" ≠ normalizeCol "age--0--5" := by
  refine ⟨by decide, by decide, by decide⟩

/-- The canonical image of a header under per-character separator
replacement: strip, lowercase, and map each single space, hyphen, or
underscore to an underscore (run lengths preserved).  Two headers with
equal `sepCanon` images are exactly the "case / surrounding-whitespace /
one-for-one separator choice" variants of each other. -/
def sepCanon (s : List Char) : List Char :=
  (pyLowerChars (pyStrip s)).map (fun c => if c = ' ' ∨ c = '-' ∨ c = '_' then '_' else c)

theorem normKey_eq_sepCanon (s : List Char) : normKey s = sepCanon s := by
  unfold normKey sepCanon
  rw [List.map_map]
  apply List.map_congr_left
  intro c _
  by_cases h1 : c = ' '
  · subst h1
    decide
  · by_cases h2 : c = '-'
    · subst h2
      decide
    · by_cases h3 : c = '_'
      · subst h3
        decide
      · simp [Function.comp, if_neg h1, if_neg h2, h1, h2, h3]

/-- **C3, amended.**  Two raw headers that agree after stripping,
lowercasing, and replacing each individual space, hyphen, or underscore
by an underscore (run lengths preserved) are mapped to the identical
canonical key; run-length differences, however, survive into the key. -/
theorem claim3_separator_choice (h1 h2 : String) (h : sepCanon h1.data = sepCanon h2.data) :
    normalizeCol h1 = normalizeCol h2 := by
  unfold normalizeCol
  rw [normKey_eq_sepCanon, normKey_eq_sepCanon, h]

theorem claim3_witness :
    sepCanon ("Age 0-5 ").data = sepCanon ("age-0_5").data ∧
    normalizeCol "Age 0-5 " = normalizeCol "age-0_5" :=
  ⟨by decide, claim3_separator_choice "Age 0-5 " "age-0_5" (by decide)⟩

/-- **C6.**  The dataset map never contains the key `unknown`, and the
diagnostics of a run are exactly one per failing file: each parse failure
contributes its error diagnostic and each unknown-schema file contributes
exactly one `unknownSchema` diagnostic naming it (`procDiag`), in batch
order; files ingested successfully contribute none. -/
theorem claim6_no_unknown_key :
    ∀ fs : List UFile,
      List.lookup "unknown" (process_data fs).1 = none ∧
      (process_data fs).2 = fs.filterMap procDiag := by
  intro fs
  constructor
  · rw [process_data_spec]
    simp only []
    rw [lookup_foldl_upsert, lastMatch_unknown]
    simp [List.lookup]
  · rw [process_data_spec]

/-- **C7.**  File-level isolation: the dataset map of a batch equals the
dataset map of the batch restricted to the files that parse (a failing
file never aborts the others); the diagnostics are exactly one per
failing file; the `load_data` loop likewise keeps every valid frame and
one diagnostic per skipped file.  Concretely, a 3-file batch whose second
file is an empty stream still ingests files 1 and 3 — into the dataset
map under `process_data`, and into the combined frame under `load_data`
— and reports exactly one diagnostic for the empty file (the `EmptyFile`
warning in `load_data`, the caught-exception report in `process_data`). -/
theorem claim7_isolation :
    (∀ fs : List UFile, (process_data fs).1 = (process_data (fs.filter parseOkB)).1) ∧
    (∀ fs : List UFile, (process_data fs).2 = fs.filterMap procDiag) ∧
    (∀ fs : List UFile, fs.foldl loadStep ([], []) = (fs.filterMap okFrame, fs.filterMap loadDiag)) ∧
    process_data [fEnrolA, fEmptyStream, fBio3] =
      ([("enrolment", tEnrolA), ("biometric", ⟨["bio_age_5_17"], [[Value.vnum 7]]⟩)],
        [⟨"empty.csv", DiagKind.processError⟩]) ∧
    load_data [fEnrolA, fEmptyStream, fBio3] =
      (some ⟨["Age_0_5", "Bio_age_5_17"],
          [[Value.vnum 1, Value.vnum 0], [Value.vnum 0, Value.vnum 7]]⟩,
        [⟨"empty.csv", DiagKind.emptyFile⟩]) := by
  refine ⟨?_, ?_, ?_, by decide, by decide⟩
  · intro fs
    rw [process_data_spec, process_data_spec, filterMap_fileOutcome_filter]
  · intro fs
    rw [process_data_spec]
  · intro fs
    rw [loadLoop_spec fs ([], [])]
    simp

/-- **C9.**  `detect_anomalies` returns `None` — with no exception (the
embedding is a total function) — whenever the input table is `None`, has
no rows, or lacks the metric column. -/
theorem claim9_none_result :
    (∀ (m : String) (t : ℚ), detect_anomalies none m t = none) ∧
    (∀ (df : Table) (m : String) (t : ℚ), df.rows = [] →
      detect_anomalies (some df) m t = none) ∧
    (∀ (df : Table) (m : String) (t : ℚ), m ∉ df.cols →
      detect_anomalies (some df) m t = none) := by
  refine ⟨fun m t => rfl, ?_, ?_⟩
  · intro df m t h
    unfold detect_anomalies
    simp [h]
  · intro df m t h
    unfold detect_anomalies
    simp [h]

theorem claim9_witness : detect_anomalies (some ⟨["a"], []⟩) "a" 2 = none :=
  claim9_none_result.2.1 ⟨["a"], []⟩ "a" 2 rfl

/-- The three conditions under which the `load_data` loop skips a file:
zero-size stream, `pd.read_csv` exception, or a parsed frame with no rows
or no columns ("no uploaded file yields a non-empty parseable CSV"). -/
def fileSkipCond (f : UFile) : Prop :=
  f.size = 0 ∨ (∃ e, f.parsed = Except.error e) ∨
    (∃ t, f.parsed = Except.ok t ∧ (t.rows = [] ∨ t.cols = []))

theorem okFrame_eq_none_of_skip (f : UFile) (h : fileSkipCond f) : okFrame f = none := by
  unfold okFrame
  rcases h with h | ⟨e, he⟩ | ⟨t, ht, hemp⟩
  · simp [h]
  · by_cases hs : f.size = 0
    · simp [hs]
    · simp [hs, he]
  · by_cases hs : f.size = 0
    · simp [hs]
    · rcases hemp with h1 | h1 <;> simp [hs, ht, h1]

/-- **C10.**  When every file of the batch is skipped (zero-size,
unparsable, or without usable rows/columns), `load_data` returns `None`
— not an exception and not an empty table — so callers must null-check. -/
theorem claim10_none_batch (fs : List UFile) (h : ∀ f ∈ fs, fileSkipCond f) :
    (load_data fs).1 = none := by
  have hframes : fs.filterMap okFrame = [] :=
    List.filterMap_eq_nil_iff.mpr (fun f hf => okFrame_eq_none_of_skip f (h f hf))
  unfold load_data
  rw [loadLoop_spec fs ([], [])]
  simp [hframes]

theorem claim10_witness : (load_data [fEmptyStream]).1 = none :=
  claim10_none_batch [fEmptyStream] (by
    intro f hf
    simp only [List.mem_singleton] at hf
    subst hf
    exact Or.inl rfl)

theorem punNums : colNums punTable "bio_age_17_" = [100, 110, 500] := by decide

theorem punCol : punTable.col "bio_age_17_" =
    [Value.vnum 100, Value.vnum 110, Value.vnum 500] := by decide

theorem punMean : meanQ (colNums punTable "bio_age_17_") = 710 / 3 := by
  rw [punNums]
  simp [meanQ]
  norm_num

theorem punVar : sampleVar (colNums punTable "bio_age_17_") = 156100 / 3 := by
  rw [punNums]
  simp [sampleVar, meanQ]
  norm_num

theorem punDeg : ¬((colNums punTable "bio_age_17_").length < 2 ∨
    sampleVar (colNums punTable "bio_age_17_") = 0) := by
  rw [not_or]
  refine ⟨?_, ?_⟩
  · rw [punNums]
    norm_num
  · rw [punVar]
    norm_num

theorem punFlags15 : anomalyFlags punTable "bio_age_17_" (3 / 2) =
    [Value.vbool false, Value.vbool false, Value.vbool false] := by
  unfold anomalyFlags
  rw [punCol]
  simp only [List.map_cons, List.map_nil]
  rw [punMean, punVar]
  have hneg : ¬((3 / 2 : ℚ) < 0) := by norm_num
  simp only [absZGtB, if_neg hneg]
  norm_num [decide_eq_false_iff_not, decide_eq_true_eq]

theorem punFlags10 : anomalyFlags punTable "bio_age_17_" 1 =
    [Value.vbool false, Value.vbool false, Value.vbool true] := by
  unfold anomalyFlags
  rw [punCol]
  simp only [List.map_cons, List.map_nil]
  rw [punMean, punVar]
  have hneg : ¬((1 : ℚ) < 0) := by norm_num
  simp only [absZGtB, if_neg hneg]
  norm_num [decide_eq_false_iff_not, decide_eq_true_eq]

theorem lowNums : colNums lowOutlierTable "m" = [0, 100, 100, 100, 100] := by decide

theorem lowCol : lowOutlierTable.col "m" =
    [Value.vnum 0, Value.vnum 100, Value.vnum 100, Value.vnum 100, Value.vnum 100] := by decide

theorem lowMean : meanQ (colNums lowOutlierTable "m") = 80 := by
  rw [lowNums]
  simp [meanQ]
  norm_num

theorem lowVar : sampleVar (colNums lowOutlierTable "m") = 2000 := by
  rw [lowNums]
  simp [sampleVar, meanQ]
  norm_num

theorem lowDeg : ¬((colNums lowOutlierTable "m").length < 2 ∨
    sampleVar (colNums lowOutlierTable "m") = 0) := by
  rw [not_or]
  refine ⟨?_, ?_⟩
  · rw [lowNums]
    norm_num
  · rw [lowVar]
    norm_num

theorem lowFlags : anomalyFlags lowOutlierTable "m" (3 / 2) =
    [Value.vbool true, Value.vbool false, Value.vbool false, Value.vbool false,
      Value.vbool false] := by
  unfold anomalyFlags
  rw [lowCol]
  simp only [List.map_cons, List.map_nil]
  rw [lowMean, lowVar]
  have hneg : ¬((3 / 2 : ℚ) < 0) := by norm_num
  simp only [absZGtB, if_neg hneg]
  norm_num [decide_eq_false_iff_not, decide_eq_true_eq]

theorem lowZCells : zScoreCells lowOutlierTable "m" =
    [Value.vz (-80) 2000, Value.vz 20 2000, Value.vz 20 2000, Value.vz 20 2000,
      Value.vz 20 2000] := by
  unfold zScoreCells
  rw [lowCol]
  simp only [List.map_cons, List.map_nil]
  rw [lowMean, lowVar]
  norm_num

/-- **C2, counterexample.**  The claim says rows with
`zScore < -threshold` are never flagged (one-sided test).  The code uses
`np.abs(df['Z_Score']) > threshold` (utils.py:96): on values
0, 100, 100, 100, 100 with threshold 1.5, the first row's `Z_Score` cell
is `vz (-80) 2000`, i.e. `-80 / √2000 < -1.5`, yet its `Is_Anomaly`
flag is `true` — a row with z-score below `-threshold` IS flagged. -/
theorem claim2_counterexample :
    detect_anomalies (some lowOutlierTable) "m" (3 / 2) =
      some (augmented lowOutlierTable "m" (3 / 2)) ∧
    (augmented lowOutlierTable "m" (3 / 2)).col "Is_Anomaly" =
      [Value.vbool true, Value.vbool false, Value.vbool false, Value.vbool false,
        Value.vbool false] ∧
    (augmented lowOutlierTable "m" (3 / 2)).col "Z_Score" =
      [Value.vz (-80) 2000, Value.vz 20 2000, Value.vz 20 2000, Value.vz 20 2000,
        Value.vz 20 2000] ∧
    (-80 : ℝ) / Real.sqrt 2000 < -(3 / 2) := by
  refine ⟨detect_anomalies_main_eq _ _ _ (by decide) (by decide) lowDeg, ?_, ?_, ?_⟩
  · rw [augmented_col_flags _ _ _ (by decide), lowFlags]
  · rw [augmented_col_z _ _ _ (by decide), lowZCells]
  · have h2000 : (0 : ℝ) < 2000 := by norm_num
    have hs : 0 < Real.sqrt 2000 := Real.sqrt_pos.mpr h2000
    have h1 : Real.sqrt 2000 < 160 / 3 := by
      rw [Real.sqrt_lt' (by norm_num : (0 : ℝ) < 160 / 3)]
      norm_num
    rw [div_lt_iff₀ hs]
    nlinarith [h1, hs]

/-- **C2, amended.**  On a grouped table with at least two numeric metric
values and nonzero sample variance, `detect_anomalies` flags a row iff
`|zScore| > threshold` — the **two-sided** absolute-value test, so low
outliers with `zScore < -threshold` are flagged as well: the flag column
equals `anomalyFlags`, and the rational flag `absZGtB num varr t` holds
iff `|num| / √varr > t` over the reals.  The spec's concrete scenario is
nevertheless correct: on values 100, 110, 500 (mean 710/3, sample
variance 156100/3, i.e. std ≈ 228.1) threshold 1.5 flags no row and
threshold 1.0 flags exactly the 500-valued row — all three z-scores are
positive there, so the one-sided and two-sided tests agree on it. -/
theorem claim2_two_sided :
    (∀ (df : Table) (m : String) (t : ℚ), df.wf → m ∈ df.cols → df.rows.isEmpty = false →
      2 ≤ (colNums df m).length → sampleVar (colNums df m) ≠ 0 →
      detect_anomalies (some df) m t = some (augmented df m t) ∧
      (augmented df m t).col "Is_Anomaly" = anomalyFlags df m t) ∧
    (∀ num varr t : ℚ, 0 < varr →
      (absZGtB num varr t = true ↔ (t : ℝ) < |(num : ℝ)| / Real.sqrt (varr : ℝ))) ∧
    detect_anomalies (some punTable) "bio_age_17_" (3 / 2) =
      some (augmented punTable "bio_age_17_" (3 / 2)) ∧
    detect_anomalies (some punTable) "bio_age_17_" 1 =
      some (augmented punTable "bio_age_17_" 1) ∧
    (augmented punTable "bio_age_17_" (3 / 2)).col "Is_Anomaly" =
      [Value.vbool false, Value.vbool false, Value.vbool false] ∧
    (augmented punTable "bio_age_17_" 1).col "Is_Anomaly" =
      [Value.vbool false, Value.vbool false, Value.vbool true] ∧
    meanQ (colNums punTable "bio_age_17_") = 710 / 3 ∧
    sampleVar (colNums punTable "bio_age_17_") = 156100 / 3 := by
  refine ⟨?_, fun num varr t hv => absZGtB_iff_real num varr t hv,
    detect_anomalies_main_eq _ _ _ (by decide) (by decide) punDeg,
    detect_anomalies_main_eq _ _ _ (by decide) (by decide) punDeg,
    ?_, ?_, punMean, punVar⟩
  · intro df m t hwf hm hne hlen hvar
    exact ⟨detect_anomalies_main_eq df m t hm hne
        (by rw [not_or]; exact ⟨not_lt.mpr hlen, hvar⟩),
      augmented_col_flags df m t hwf⟩
  · rw [augmented_col_flags _ _ _ (by decide), punFlags15]
  · rw [augmented_col_flags _ _ _ (by decide), punFlags10]

theorem claim2_witness :
    detect_anomalies (some punTable) "bio_age_17_" 1 =
      some (augmented punTable "bio_age_17_" 1) ∧
    (augmented punTable "bio_age_17_" 1).col "Is_Anomaly" =
      anomalyFlags punTable "bio_age_17_" 1 :=
  claim2_two_sided.1 punTable "bio_age_17_" 1 (by decide) (by decide) (by decide)
    (by decide) (by rw [punVar]; norm_num)

theorem cols_twoSetCols (df : Table) (zs bs : List Value)
    (hz : "Z_Score" ∉ df.cols) (ha : "Is_Anomaly" ∉ df.cols) :
    ((df.setCol "Z_Score" zs).setCol "Is_Anomaly" bs).cols =
      df.cols ++ ["Z_Score", "Is_Anomaly"] := by
  have h1 : (df.setCol "Z_Score" zs).cols = df.cols ++ ["Z_Score"] := by
    rw [Table.cols_setCol, if_neg hz]
  have hno : "Is_Anomaly" ∉ df.cols ++ ["Z_Score"] := by
    intro hcon
    rcases List.mem_append.mp hcon with hmem | hmem
    · exact ha hmem
    · simp at hmem
  rw [Table.cols_setCol, h1, if_neg hno]
  simp

theorem ne_of_appended_cols (r df : Table)
    (h : r.cols = df.cols ++ ["Z_Score", "Is_Anomaly"]) : r ≠ df := by
  intro hcon
  rw [hcon] at h
  have hlen := congrArg List.length h
  simp at hlen

theorem mutNums : colNums mutTable "m" = [1, 2] := by decide

theorem mutVar : sampleVar (colNums mutTable "m") = 1 / 2 := by
  rw [mutNums]
  simp [sampleVar, meanQ]
  norm_num

theorem mutDeg : ¬((colNums mutTable "m").length < 2 ∨
    sampleVar (colNums mutTable "m") = 0) := by
  rw [not_or]
  refine ⟨?_, ?_⟩
  · rw [mutNums]
    norm_num
  · rw [mutVar]
    norm_num

/-- **C4, counterexample.**  The claim says `detect_anomalies` leaves the
caller's table unchanged.  In the source the function assigns the
`Z_Score` and `Is_Anomaly` columns onto the argument DataFrame itself
(utils.py:95-96) and returns that same object: after the call on a
two-row table, the caller's table has the three columns
`m, Z_Score, Is_Anomaly`, not its original single column — it is not the
table that was passed in. -/
theorem claim4_counterexample :
    detect_anomalies_argAfter (some mutTable) "m" 2 = some (augmented mutTable "m" 2) ∧
    (augmented mutTable "m" 2).cols = ["m", "Z_Score", "Is_Anomaly"] ∧
    detect_anomalies_argAfter (some mutTable) "m" 2 ≠ some mutTable := by
  have h1 : detect_anomalies (some mutTable) "m" 2 = some (augmented mutTable "m" 2) :=
    detect_anomalies_main_eq _ _ _ (by decide) (by decide) mutDeg
  have h2 : (augmented mutTable "m" 2).cols = ["m", "Z_Score", "Is_Anomaly"] := by
    unfold augmented
    rw [cols_twoSetCols _ _ _ (by decide) (by decide)]
    rfl
  refine ⟨?_, h2, ?_⟩
  · unfold detect_anomalies_argAfter
    rw [h1]
  · unfold detect_anomalies_argAfter
    rw [h1]
    intro hcon
    have h3 := congrArg Table.cols (Option.some.inj hcon)
    rw [h2] at h3
    simp [mutTable] at h3

/-- **C4, amended.**  `detect_anomalies` mutates its argument: on any
input that does not take an early `None` return (nonempty rows, metric
column present), the caller's table afterwards is the returned table,
which has gained the `Z_Score` and `Is_Anomaly` columns; only the early
`None` paths leave the argument untouched. -/
theorem claim4_mutation (df : Table) (m : String) (t : ℚ) (hm : m ∈ df.cols)
    (hne : df.rows.isEmpty = false) (hz : "Z_Score" ∉ df.cols)
    (ha : "Is_Anomaly" ∉ df.cols) :
    ∃ r, detect_anomalies_argAfter (some df) m t = some r ∧
      r.cols = df.cols ++ ["Z_Score", "Is_Anomaly"] ∧ r ≠ df := by
  by_cases hdeg : (colNums df m).length < 2 ∨ sampleVar (colNums df m) = 0
  · have hcols := cols_twoSetCols df (List.replicate df.rows.length (Value.vnum 0))
      (List.replicate df.rows.length (Value.vbool false)) hz ha
    refine ⟨degenerateAugment df, ?_, hcols, ne_of_appended_cols _ _ hcols⟩
    unfold detect_anomalies_argAfter
    rw [detect_anomalies_degenerate_eq df m t hm hne hdeg]
  · have hcols := cols_twoSetCols df (zScoreCells df m) (anomalyFlags df m t) hz ha
    refine ⟨augmented df m t, ?_, hcols, ne_of_appended_cols _ _ hcols⟩
    unfold detect_anomalies_argAfter
    rw [detect_anomalies_main_eq df m t hm hne hdeg]

theorem claim4_witness :
    ∃ r, detect_anomalies_argAfter (some mutTable) "m" 2 = some r ∧
      r.cols = mutTable.cols ++ ["Z_Score", "Is_Anomaly"] ∧ r ≠ mutTable :=
  claim4_mutation mutTable "m" 2 (by decide) (by decide) (by decide) (by decide)

/-- **C5, counterexample.**  The claim says every non-numeric cell of a
metric-like column is coerced to 0 for *every ingested file* before any
downstream sum.  The dashboard's ingestion path `process_data`
(app.py:158-186) performs no numeric coercion at all: a biometric file
whose `bio_age_5_17` cell is the raw string `oops` lands in the dataset
map with the string intact (only `load_data` in utils.py coerces). -/
theorem claim5_counterexample :
    (process_data [rawBioFile]).1 =
      [("biometric", ⟨["bio_age_5_17"], [[Value.vstr "oops"]]⟩)] ∧
    metricLike "bio_age_5_17" = true ∧
    (Table.mk ["bio_age_5_17"] [[Value.vstr "oops"]]).col "bio_age_5_17" =
      [Value.vstr "oops"] ∧
    Value.vstr "oops" ≠ Value.vnum 0 := by
  refine ⟨by decide, by decide, by decide, by decide⟩

/-- **C5, amended.**  Metric coercion happens only in the `load_data`
loader: in its output table, every column whose lowercased name contains
one of `age`, `count`, `total`, `enrolment`, `bio` holds only numeric
cells — each cell went through
`pd.to_numeric(..., errors='coerce').fillna(0)`, so non-numeric and null
cells became numbers (0).  The `process_data` ingestion path applies no
such coercion (see the counterexample). -/
theorem claim5_load_coercion (fs : List UFile) (df : Table) (ds : List Diag)
    (h : load_data fs = (some df, ds)) (c : String) (hc : c ∈ df.cols)
    (hm : metricLike c = true) : ∀ v ∈ df.col c, ∃ q, v = Value.vnum q := by
  unfold load_data at h
  split at h
  · exact absurd (congrArg Prod.fst h) (by simp)
  · have hdf : df = numericCoerce (dateHandling (capitalizeCols
        (concatTables (fs.foldl loadStep ([], [])).1))) := by
      have hfst := congrArg Prod.fst h
      simp only [Prod.fst] at hfst
      exact (Option.some.inj hfst).symm
    subst hdf
    exact numericCoerce_col_num _
      (wf_dateHandling _ (wf_capitalizeCols _ (wf_concatTables _))) c hc hm

theorem claim5_witness :
    load_data [strFile] = (some ⟨["Age_0_5"], [[Value.vnum 0], [Value.vnum 3]]⟩, []) ∧
    (∃ q, Value.vnum 0 = Value.vnum q) := by
  refine ⟨by decide, ?_⟩
  exact claim5_load_coercion [strFile] ⟨["Age_0_5"], [[Value.vnum 0], [Value.vnum 3]]⟩ []
    (by decide) "Age_0_5" (by decide) (by decide) (Value.vnum 0) (by decide)

/-- **C8.**  Whenever the metric column has fewer than two numeric values
(pandas `std` is `NaN`), or its sample variance is zero — in particular
whenever all its values are equal — `detect_anomalies` takes the guarded
branch that performs no division: every row's `Z_Score` cell is the
number 0 and every `Is_Anomaly` cell is `false`. -/
theorem claim8_degenerate (df : Table) (m : String) (t : ℚ) (hwf : df.wf)
    (hm : m ∈ df.cols) (hne : df.rows.isEmpty = false)
    (hdeg : (colNums df m).length < 2 ∨ sampleVar (colNums df m) = 0 ∨
      ∀ x ∈ colNums df m, ∀ y ∈ colNums df m, x = y) :
    detect_anomalies (some df) m t = some (degenerateAugment df) ∧
    (degenerateAugment df).col "Z_Score" = List.replicate df.rows.length (Value.vnum 0) ∧
    (degenerateAugment df).col "Is_Anomaly" =
      List.replicate df.rows.length (Value.vbool false) := by
  have hdeg2 : (colNums df m).length < 2 ∨ sampleVar (colNums df m) = 0 := by
    rcases hdeg with h | h | h
    · exact Or.inl h
    · exact Or.inr h
    · cases hlist : colNums df m with
      | nil => exact Or.inl (by simp)
      | cons a t2 =>
        right
        apply sampleVar_const _ a
        intro x hx
        exact h x (by rw [hlist]; exact hx) a (by rw [hlist]; simp)
  have hwfZ : (df.setCol "Z_Score" (List.replicate df.rows.length (Value.vnum 0))).wf :=
    Table.wf_setCol _ _ _ hwf (by simp)
  have hlenZ : (List.replicate df.rows.length (Value.vbool false)).length =
      (df.setCol "Z_Score" (List.replicate df.rows.length (Value.vnum 0))).rows.length := by
    rw [List.length_replicate, Table.rows_setCol_length _ _ _ (by simp)]
  refine ⟨detect_anomalies_degenerate_eq df m t hm hne hdeg2, ?_, ?_⟩
  · unfold degenerateAugment
    rw [Table.col_setCol_ne _ "Is_Anomaly" "Z_Score" _ hwfZ hlenZ
      (Table.mem_cols_setCol _ _ _) (by decide)]
    exact Table.col_setCol_self _ _ _ hwf (by simp)
  · unfold degenerateAugment
    exact Table.col_setCol_self _ _ _ hwfZ hlenZ

/-- All-equal metric values, for the C8 witness. -/
def constTable : Table := ⟨["m"], [[Value.vnum 4], [Value.vnum 4]]⟩

theorem claim8_witness :
    detect_anomalies (some constTable) "m" 2 = some (degenerateAugment constTable) ∧
    (degenerateAugment constTable).col "Z_Score" =
      List.replicate constTable.rows.length (Value.vnum 0) ∧
    (degenerateAugment constTable).col "Is_Anomaly" =
      List.replicate constTable.rows.length (Value.vbool false) :=
  claim8_degenerate constTable "m" 2 (by decide) (by decide) (by decide)
    (Or.inr (Or.inr (by decide)))

end AadhaarSuite
